import Mathlib

/-!
Verification development for the location hook in
`src/hooks/useCustomLocation.ts`.

The TypeScript source is shallowly embedded: JavaScript numbers holding
coordinates/thresholds are modelled as rationals, millisecond timestamps as
naturals (compared over the integers where JavaScript subtraction matters),
and the single-threaded cooperative concurrency of the event loop is modelled
as explicit small-step trace semantics whose atomic steps are exactly the
synchronous (await-free) runs of the source.
-/

namespace LocationHook

/-- Coordinates as carried by the location provider.  The source type
`Location.LocationObjectCoords` also carries accuracy, altitude and speed
fields that the hook passes through opaquely; only `latitude` and `longitude`
are ever read (`createCacheKey`, `hasSignificantChange`), so the embedding
keeps those two. -/
structure Coords where
  latitude : ℚ
  longitude : ℚ
deriving DecidableEq

/-- Reverse geocoded address (`Location.LocationGeocodedAddress`): structured
place attributes treated opaquely by the hook. -/
structure GeocodedAddress where
  street : Option String := none
  city : Option String := none
deriving DecidableEq

/-- Cached location record, the source type `CachedLocation`. -/
structure CachedLocation where
  coords : Coords
  address : Option GeocodedAddress
  timestamp : Nat
  cacheTTL : Nat
deriving DecidableEq

/-- Source constant `CACHE_TTL = 5 * 60 * 1000`. -/
def CACHE_TTL : Nat := 5 * 60 * 1000

/-- Source constant `REVERSE_GEOCODE_CACHE_TTL = 10 * 60 * 1000`. -/
def REVERSE_GEOCODE_CACHE_TTL : Nat := 10 * 60 * 1000

/-- Source constant `SIGNIFICANT_CHANGE_THRESHOLD = 0.0001`. -/
def SIGNIFICANT_CHANGE_THRESHOLD : ℚ := 1 / 10000

/-!
Location Cache (`cachedLocation` global plus `updateLocation` / `isCacheValid`).
-/

/-- Embedding of `updateLocation` (source lines 437-468), restricted to its
effect on the global `cachedLocation` record.  The function also pushes
`coords`/`address` into the session's React state, which is modelled in the
session layer; here we keep the cache effect.  `now` stands for the
`Date.now()` call at line 444, `instTTL` for the hook instance's `cacheTTL`
captured at line 460. -/
def updateLocation (isMounted : Bool) (cache : Option CachedLocation)
    (loc : Coords) (addr : Option GeocodedAddress) (now : Nat) (instTTL : Nat) :
    Option CachedLocation :=
  if isMounted = false then cache
  else
    match cache with
    | some cur =>
        if now < cur.timestamp then cache
        else some ⟨loc, addr, now, instTTL⟩
    | none => some ⟨loc, addr, now, instTTL⟩

/-- Timestamp of the stored record, `0` when none is stored. -/
def tsOf : Option CachedLocation → Nat
  | none => 0
  | some c => c.timestamp

/-- One write request to the Location Cache: mounted flag, coordinates,
address, the `Date.now()` value at write time, and the writer's TTL option. -/
abbrev WriteReq := Bool × Coords × Option GeocodedAddress × Nat × Nat

/-- Applies one write request through `updateLocation`. -/
def applyWrite (cache : Option CachedLocation) (w : WriteReq) :
    Option CachedLocation :=
  updateLocation w.1 cache w.2.1 w.2.2.1 w.2.2.2.1 w.2.2.2.2

/-- Applies a sequence of write requests in order. -/
def applyWrites (cache : Option CachedLocation) (ws : List WriteReq) :
    Option CachedLocation :=
  ws.foldl applyWrite cache

/-- Embedding of `isCacheValid` (source lines 649-655).  The JavaScript
`cachedLocation.cacheTTL || cacheTTL` falls back to the instance TTL exactly
when the stored TTL is `0` (falsy); `now - cachedLocation.timestamp` is
computed over the integers as in JavaScript. -/
def isCacheValid (cache : Option CachedLocation) (instanceTTL : Nat)
    (now : Nat) : Bool :=
  match cache with
  | none => false
  | some c =>
      let effectiveTTL : Nat := if c.cacheTTL = 0 then instanceTTL else c.cacheTTL
      decide ((now : ℤ) - (c.timestamp : ℤ) < (effectiveTTL : ℤ))

/-- Modelled from the claim and from the spec contract
`isValid(ttlOverride)`: a record exists and
`now - record.timestamp < (ttlOverride ?? record.ttl)`, the caller-supplied
override taking precedence over the TTL stored in the record.  Written to be
compared with `isCacheValid` above. -/
def isCacheValidSpec (cache : Option CachedLocation) (ttlOverride : Option Nat)
    (now : Nat) : Bool :=
  match cache with
  | none => false
  | some c =>
      decide ((now : ℤ) - (c.timestamp : ℤ) < ((ttlOverride.getD c.cacheTTL : Nat) : ℤ))

/-!
Significant-change predicate (`hasSignificantChange`, source lines 417-430).
-/

/-- Embedding of `hasSignificantChange`: strict `>` comparison of the absolute
per-axis differences against the configured threshold, joined by `||`. -/
def hasSignificantChange (threshold : ℚ) (oldCoords newCoords : Coords) : Bool :=
  decide (|newCoords.latitude - oldCoords.latitude| > threshold) ||
    decide (|newCoords.longitude - oldCoords.longitude| > threshold)

/-!
Race Strategy (`fetchLocationWithRace`, source lines 474-528).

Each raw position source either fulfils with a coordinate-or-null or rejects.
The source wraps both with `.catch(() => null)` followed by a `.then` that
maps the result to `null` when the abort signal has fired by settle time, so
the wrapped promises never reject and `Promise.allSettled` always reports
them as fulfilled.  The race schedule (which wrapped promise settles first)
is an environment parameter.
-/

/-- Raw outcome of one position source promise: fulfilled with
a fix or with null (`getLastKnownPositionAsync` may legitimately resolve
null), or rejected. -/
inductive SourceOutcome where
  | ok (v : Option Coords)
  | err
deriving DecidableEq

/-- Effect of the `.catch(() => null)` handler attached to each source. -/
def swallow : SourceOutcome → Option Coords
  | .ok v => v
  | .err => none

/-- Value of the wrapped source promise: failures swallowed as null, then
mapped to null if the abort signal had fired when the source settled. -/
def wrapped (o : SourceOutcome) (abortedAtSettle : Bool) : Option Coords :=
  if abortedAtSettle then none else swallow o

/-- Embedding of `fetchLocationWithRace`: race the two wrapped sources, take
the winner if non-null; otherwise wait for both (`Promise.allSettled`; both
are fulfilled since failures are swallowed) and prefer the last-known value,
then the fresh value, else null.  `abAfterRace` and `abAfterBoth` are the
abort-signal checks at source lines 504 and 514. -/
def fetchLocationWithRace (lastO newO : SourceOutcome) (lastAb newAb : Bool)
    (lastSettlesFirst : Bool) (abAfterRace abAfterBoth : Bool) :
    Option Coords :=
  let lastV := wrapped lastO lastAb
  let newV := wrapped newO newAb
  let raceResult := if lastSettlesFirst then lastV else newV
  if abAfterRace then none
  else
    match raceResult with
    | some v => some v
    | none =>
        if abAfterBoth then none
        else
          match lastV with
          | some v => some v
          | none =>
              match newV with
              | some v => some v
              | none => none

/-- Modelled from the claim's description of the race strategy: the first
race winner when it is non-null, otherwise, after both sources settle, the
last-known result if it succeeded with a fix, else the fresh low-accuracy
result if it succeeded with a fix, else null.  Written to be compared with
`fetchLocationWithRace`. -/
def raceStrategySpec (lastV newV : Option Coords) (lastSettlesFirst : Bool) :
    Option Coords :=
  let winner := if lastSettlesFirst then lastV else newV
  match winner with
  | some v => some v
  | none =>
      match lastV with
      | some v => some v
      | none =>
          match newV with
          | some v => some v
          | none => none

/-!
Geocode Cache and pending-request dedup
(`createCacheKey`, `reverseGeocodeAsync`, `cleanReverseGeocodeCache`,
source lines 176-199 and 276-342).

`reverseGeocodeAsync` is an async function whose body contains no `await`
between entry and `return`: the inner request IIFE suspends at its first
`await Location.reverseGeocodeAsync(...)`, after which the outer body
synchronously registers the pending promise and returns.  Under the
single-threaded event loop no other task can interleave, so the whole call
is one atomic step (`rgCall`).  The continuation of the request IIFE after
the external call settles is a second atomic step (`rgComplete`).
-/

/-- Coordinate bucket key.  The source builds the string
`"lat,lng"` from the two rounded axes; two distinct rounded pairs always
yield distinct strings, so the pair itself is a faithful key. -/
abbrev BucketKey := ℚ × ℚ

/-- JavaScript `Math.round(x * 10000) / 10000`: `Math.round` is
floor of `x + 1/2` (halves round toward positive infinity). -/
def roundTo4 (x : ℚ) : ℚ := ((⌊x * 10000 + 1 / 2⌋ : ℤ) : ℚ) / 10000

/-- Embedding of `createCacheKey` (source lines 176-180). -/
def createCacheKey (c : Coords) : BucketKey :=
  (roundTo4 c.latitude, roundTo4 c.longitude)

/-- Global geocode state: the result cache (`reverseGeocodeCache`), the
pending map (`pendingReverseGeocodeRequests`), and the in-flight resolutions
(the running request IIFEs, identified by the id the environment picked at
creation).  The first two are the source's `Map`s represented as functions;
`inFlight` records which resolution tasks have started and not yet settled. -/
structure GeoState where
  cache : BucketKey → Option (Option GeocodedAddress × Nat)
  pending : BucketKey → Option Nat
  inFlight : List (Nat × BucketKey)

/-- Initial geocode state: both maps empty, nothing in flight. -/
def geoInit : GeoState :=
  { cache := fun _ => none, pending := fun _ => none, inFlight := [] }

/-- Result observed by one caller of `reverseGeocodeAsync` at the moment the
call returns: null (aborted on entry), a cache hit, the shared pending
promise of the resolution `rid`, or the promise of the freshly created
resolution `rid`. -/
inductive CallRes where
  | nullResult
  | cachedHit (a : Option GeocodedAddress)
  | joined (rid : Nat)
  | created (rid : Nat)
deriving DecidableEq

/-- Pending-map branch of `reverseGeocodeAsync` (source lines 292-341): join
an existing pending request, or create a new one, registering the pending
handle in the same atomic step.  The second `signal?.aborted` check at line
295 reads the same signal in the same synchronous run as line 280. -/
def rgCallPending (s : GeoState) (rid : Nat) (k : BucketKey) (aborted : Bool) :
    GeoState × CallRes :=
  match s.pending k with
  | some r => if aborted then (s, .nullResult) else (s, .joined r)
  | none =>
      ({ s with
          pending := fun k2 => if k2 = k then some rid else s.pending k2,
          inFlight := (rid, k) :: s.inFlight },
        .created rid)

/-- Embedding of the synchronous body of `reverseGeocodeAsync` (source lines
276-342): abort check, cache lookup with TTL test, then the pending-map
branch.  `rid` is the identity the environment gives a freshly created
resolution. -/
def rgCall (s : GeoState) (rid : Nat) (k : BucketKey) (aborted : Bool)
    (now : Nat) : GeoState × CallRes :=
  if aborted then (s, .nullResult)
  else
    match s.cache k with
    | some e =>
        if (now : ℤ) - (e.2 : ℤ) < (REVERSE_GEOCODE_CACHE_TTL : ℤ) then
          (s, .cachedHit e.1)
        else rgCallPending s rid k aborted
    | none => rgCallPending s rid k aborted

/-- Embedding of the request IIFE's continuation after the external
`Location.reverseGeocodeAsync` call settles (source lines 300-336).
`aborted` is the creator's signal state at that moment; `outcome` is either
the external call's address-or-absent or a thrown error.  On success with the
signal clear the result is cached with the save timestamp; an abort or a
caught error yields null with no cache write.  The `finally` clause removes
the pending handle on every path; the settled task leaves `inFlight`. -/
def rgComplete (s : GeoState) (rid : Nat) (k : BucketKey) (aborted : Bool)
    (outcome : Except Unit (Option GeocodedAddress)) (saveTime : Nat) :
    GeoState × Option GeocodedAddress :=
  let base : GeoState :=
    { s with
        pending := fun k2 => if k2 = k then none else s.pending k2,
        inFlight := s.inFlight.erase (rid, k) }
  match outcome with
  | .error _ => (base, none)
  | .ok a =>
      if aborted then (base, none)
      else
        ({ base with cache := fun k2 => if k2 = k then some (a, saveTime) else s.cache k2 },
          a)

/-- Embedding of `cleanReverseGeocodeCache`'s eviction pass (source lines
186-199): every entry strictly older than its TTL is deleted.  The size
threshold and debounce only restrict when the pass runs; the trace semantics
lets the environment schedule it at any time, a superset of the source's
behaviours. -/
def cleanReverseGeocodeCache (now : Nat)
    (cache : BucketKey → Option (Option GeocodedAddress × Nat)) :
    BucketKey → Option (Option GeocodedAddress × Nat) :=
  fun k =>
    match cache k with
    | some e =>
        if (now : ℤ) - (e.2 : ℤ) > (REVERSE_GEOCODE_CACHE_TTL : ℤ) then none
        else some e
    | none => none

/-- Events of the geocode subsystem, chosen by the environment scheduler:
a caller invoking `reverseGeocodeAsync`, a created resolution settling, or an
eviction pass. -/
inductive GeoEvent where
  | call (rid : Nat) (k : BucketKey) (aborted : Bool) (now : Nat)
  | complete (rid : Nat) (k : BucketKey) (aborted : Bool)
      (outcome : Except Unit (Option GeocodedAddress)) (saveTime : Nat)
  | cleanup (now : Nat)

/-- Small-step semantics of the geocode subsystem.  A `complete` event fires
only for a resolution that is actually in flight (a task settles once). -/
def geoStep (s : GeoState) (e : GeoEvent) : GeoState :=
  match e with
  | .call rid k ab now => (rgCall s rid k ab now).1
  | .complete rid k ab out t =>
      if (rid, k) ∈ s.inFlight then (rgComplete s rid k ab out t).1 else s
  | .cleanup now => { s with cache := cleanReverseGeocodeCache now s.cache }

/-- Runs a trace of geocode events from the initial state. -/
def geoRun (es : List GeoEvent) : GeoState :=
  es.foldl geoStep geoInit

/-- Well-formedness invariant tying the pending map to the in-flight tasks:
a registered pending handle is the handle of an in-flight resolution and
conversely, and no in-flight task is recorded twice. -/
def GeoInv (s : GeoState) : Prop :=
  (∀ k r, s.pending k = some r → (r, k) ∈ s.inFlight) ∧
  (∀ r k, (r, k) ∈ s.inFlight → s.pending k = some r) ∧
  s.inFlight.Nodup

/-!
Fetch Mutex (`class FetchMutex`, source lines 80-111) together with the way
`useEffect`'s mount effect abandons an acquisition (source lines 725-798):
the caller races `fetchMutex.acquire()` against a polling cancellation
promise; when cancellation wins, `releaseMutex` stays null and the caller
returns, but nothing removes the waiter callback from `waiters`, so a later
`release` still shifts it, re-locks, and resolves the now-orphaned acquire
promise whose release handle nobody holds.

State: `isLocked` and the FIFO `waiters` array are the class fields; `holder`
identifies which caller's resolve obtained the lock (ghost identification of
the callback stored in `waiters`); `cancelled` records the waiter ids whose
cancellation signal fired before they were granted the lock.
-/

/-- Mutex state. -/
structure MutexState where
  isLocked : Bool
  holder : Option Nat
  waiters : List Nat
  cancelled : List Nat
deriving DecidableEq

/-- Unlocked mutex, no waiters. -/
def mutexInit : MutexState :=
  { isLocked := false, holder := none, waiters := [], cancelled := [] }

/-- Mutex events: a caller invoking `acquire`, a waiting caller's
cancellation signal firing before grant, and the current holder invoking its
release handle. -/
inductive MutexEvent where
  | acquire (id : Nat)
  | cancel (id : Nat)
  | release
deriving DecidableEq

/-- Small-step semantics of `FetchMutex` as used by the hook.
`acquire`: lock immediately when free, else append to `waiters` (source
lines 84-109).  `cancel id`: the caller's cancellation race resolves null;
the mutex state is untouched — in particular the waiter entry is NOT removed
(if `id` already holds the lock its caller has the release handle and the
cleanup will release, so nothing is marked).  `release`: unlock and, when
waiters exist, shift the first one, re-lock and grant it — even when its
caller was cancelled (source lines 87-94, 100-107). -/
def mutexStep (s : MutexState) (e : MutexEvent) : MutexState :=
  match e with
  | .acquire id =>
      if s.isLocked then { s with waiters := s.waiters ++ [id] }
      else { s with isLocked := true, holder := some id }
  | .cancel id =>
      if s.holder = some id then s
      else { s with cancelled := id :: s.cancelled }
  | .release =>
      match s.waiters with
      | [] => { s with isLocked := false, holder := none }
      | w :: rest => { s with isLocked := true, holder := some w, waiters := rest }

/-- A `release` event can only be issued by the current holder, and a holder
whose cancellation fired before it was granted never issues one: its
`releaseMutex` variable is null because its acquire promise lost the
`Promise.race` at source line 742, so neither the early returns, the
`finally` at line 787, nor the effect cleanup at line 798 release. -/
def mutexEventValid (s : MutexState) : MutexEvent → Bool
  | .release =>
      s.isLocked &&
        (match s.holder with
          | some h => !(s.cancelled.contains h)
          | none => false)
  | _ => true

/-- Validity of a whole event sequence from a state. -/
def mutexSeqValid (s : MutexState) : List MutexEvent → Bool
  | [] => true
  | e :: es => mutexEventValid s e && mutexSeqValid (mutexStep s e) es

/-- Runs mutex events from a state. -/
def mutexRunFrom (s : MutexState) (es : List MutexEvent) : MutexState :=
  es.foldl mutexStep s

/-- Runs mutex events from the initial state. -/
def mutexRun (es : List MutexEvent) : MutexState :=
  mutexRunFrom mutexInit es

/-- Concrete scenario for the cancellation defect: session 0 holds the lock,
sessions 1 and 2 are queued in FIFO order, session 1's cancellation fires
while it waits, then session 0 releases. -/
def mutexDefectTrace : List MutexEvent :=
  [.acquire 0, .acquire 1, .acquire 2, .cancel 1, .release]

/-!
Consumer Session (`fetchLocation`, source lines 537-644, reached through
`refresh`).  The state machine of one hook instance: React state snapshot,
mounted and in-flight flags, and a ghost counter of provider calls
(`requestForegroundPermissionsAsync`, `getLastKnownPositionAsync`,
`getCurrentPositionAsync`).  The environment fixes the outcome of each
awaited provider call and the abort-signal status at each `signal.aborted`
checkpoint; the mounted flag is taken as constant across the modelled fetch
(the claims settled here do not involve a mid-fetch unmount).
-/

/-- Session state of one hook instance. -/
structure SessionState where
  coords : Option Coords
  address : Option GeocodedAddress
  loading : Bool
  error : Option String
  isMounted : Bool
  isFetching : Bool
  providerCalls : Nat
deriving DecidableEq

/-- Environment of one `fetchLocation` run: permission outcome, the
abort-signal status at the checkpoints of source lines 559 and 567, and the
race environment of `fetchLocationWithRace`. -/
structure FetchEnv where
  permissionGranted : Bool
  abortedAfterPermission : Bool
  lastO : SourceOutcome
  newO : SourceOutcome
  lastAb : Bool
  newAb : Bool
  lastSettlesFirst : Bool
  abAfterRace : Bool
  abAfterBoth : Bool
  abortedAfterRaceReturn : Bool
deriving DecidableEq

/-- Value `fetchLocationWithRace` returns under an environment. -/
def raceValue (env : FetchEnv) : Option Coords :=
  fetchLocationWithRace env.lastO env.newO env.lastAb env.newAb
    env.lastSettlesFirst env.abAfterRace env.abAfterBoth

/-- Error message thrown on denied permission (source line 562). -/
def errorMsgPermission : String :=
  "Unable to access your location. Check your device settings."

/-- Error message thrown when no fix is obtainable (source line 569). -/
def errorMsgNoFix : String :=
  "Unable to get location. Please try again."

/-- Catch block of `fetchLocation` (source lines 611-631).  The throw sites
are in the same synchronous run as the preceding `signal.aborted` check, so
the signal is clear on entry from them; the `aborted` parameter keeps the
guard of line 612 visible.  When mounted, the error message is published and
coordinates, address and loading are cleared. -/
def applyFetchError (s : SessionState) (aborted : Bool) (msg : String) :
    SessionState :=
  if aborted then s
  else if s.isMounted then
    { s with error := some msg, coords := none, address := none, loading := false }
  else s

/-- Embedding of `fetchLocation` (source lines 537-635) up to its settled
state.  The single-flight guard at line 541 returns before any effect.  The
synchronous prologue sets the in-flight flag, loading and error (via
`safeSetState`, hence only when mounted), then one provider call requests
permission; on grant the race issues two more provider calls.  The spawned
geocode and refinement continuations are non-blocking background tasks
modelled by the geocode subsystem above; the `finally` clause always clears
the in-flight flag. -/
def fetchLocation (env : FetchEnv) (s : SessionState) : SessionState :=
  if s.isFetching then s
  else
    let s1 : SessionState :=
      { s with
          isFetching := true,
          loading := if s.isMounted then true else s.loading,
          error := if s.isMounted then none else s.error,
          providerCalls := s.providerCalls + 1 }
    if env.abortedAfterPermission then { s1 with isFetching := false }
    else if env.permissionGranted = false then
      { applyFetchError s1 false errorMsgPermission with isFetching := false }
    else
      let s2 : SessionState := { s1 with providerCalls := s1.providerCalls + 2 }
      if env.abortedAfterRaceReturn then { s2 with isFetching := false }
      else
        match raceValue env with
        | none => { applyFetchError s2 false errorMsgNoFix with isFetching := false }
        | some c =>
            if s2.isMounted = false then { s2 with isFetching := false }
            else { s2 with coords := some c, loading := false, isFetching := false }

/-!
Concrete example data used by counterexamples and witnesses.
-/

/-- Example coordinates. -/
def coordsA : Coords := { latitude := 10, longitude := 20 }

/-- Bucket of `coordsA`: both axes are already at 4-decimal precision. -/
def bucketA : BucketKey := (10, 20)

/-- Example address. -/
def addrA : GeocodedAddress := { street := some "Main Street", city := some "Springfield" }

/-- Example cached record whose stored TTL (1000 ms) is shorter than the
caller-supplied override (5000 ms). -/
def c4Record : CachedLocation :=
  { coords := coordsA, address := none, timestamp := 0, cacheTTL := 1000 }

/-- Geocode state right after a resolution for `bucketA` was created (with id
0, at time 100, signal clear). -/
def geoAfterCreateA : GeoState := (rgCall geoInit 0 bucketA false 100).1

/-- Geocode state with a resolution (id 7) pending for `bucketA`. -/
def geoPendingA : GeoState :=
  { cache := fun _ => none,
    pending := fun k2 => if k2 = bucketA then some 7 else none,
    inFlight := [(7, bucketA)] }

/-- Geocode state whose cache holds an absent-address entry for `bucketA`
saved at time 100. -/
def geoCachedNullA : GeoState :=
  { cache := fun k2 => if k2 = bucketA then some (none, 100) else none,
    pending := fun _ => none,
    inFlight := [] }

/-- Mounted session with a fetch already in flight. -/
def sessionIdleA : SessionState :=
  { coords := none, address := none, loading := true, error := none,
    isMounted := true, isFetching := true, providerCalls := 3 }

/-- Mounted session with no fetch in flight. -/
def sessionReadyA : SessionState :=
  { coords := none, address := none, loading := true, error := none,
    isMounted := true, isFetching := false, providerCalls := 0 }

/-- Environment where the permission request is denied and no cancellation
signal fires. -/
def envDenied : FetchEnv :=
  { permissionGranted := false, abortedAfterPermission := false,
    lastO := .ok none, newO := .ok none, lastAb := false, newAb := false,
    lastSettlesFirst := true, abAfterRace := false, abAfterBoth := false,
    abortedAfterRaceReturn := false }

/-- Environment where permission is granted and the last-known source wins
the race with `coordsA`. -/
def envGrantedA : FetchEnv :=
  { permissionGranted := true, abortedAfterPermission := false,
    lastO := .ok (some coordsA), newO := .err, lastAb := false, newAb := false,
    lastSettlesFirst := true, abAfterRace := false, abAfterBoth := false,
    abortedAfterRaceReturn := false }

/-!
Theorems.
-/

/-- Helper for C1: a single `updateLocation` call never decreases the stored
timestamp. -/
theorem tsOf_updateLocation_le (m : Bool) (cache : Option CachedLocation)
    (loc : Coords) (addr : Option GeocodedAddress) (now ttl : Nat) :
    tsOf cache ≤ tsOf (updateLocation m cache loc addr now ttl) := by
  unfold updateLocation
  cases m with
  | false => simp
  | true =>
      cases cache with
      | none => simp [tsOf]
      | some cur =>
          by_cases h : now < cur.timestamp
          · simp [h]
          · simp [h, tsOf]
            omega

/-- Helper for C1: timestamp monotonicity along any sequence of writes. -/
theorem tsOf_applyWrites_le (ws : List WriteReq) (cache : Option CachedLocation) :
    tsOf cache ≤ tsOf (applyWrites cache ws) := by
  induction ws generalizing cache with
  | nil => exact Nat.le_refl _
  | cons w ws ih =>
      calc tsOf cache ≤ tsOf (applyWrite cache w) :=
            tsOf_updateLocation_le _ _ _ _ _ _
        _ ≤ tsOf (applyWrites (applyWrite cache w) ws) := ih _

/-- C1: for every sequence of writes to the global Location Cache the stored
timestamp is monotonically non-decreasing; a write whose timestamp is
strictly older than the stored record's timestamp is rejected as a no-op
leaving the record unchanged, and any other (mounted) write replaces the
record wholesale. -/
theorem locationCache_timestamp_monotone :
    (∀ m cache loc addr now ttl,
        tsOf cache ≤ tsOf (updateLocation m cache loc addr now ttl)) ∧
    (∀ ws : List WriteReq, ∀ cache, tsOf cache ≤ tsOf (applyWrites cache ws)) ∧
    (∀ cur : CachedLocation, ∀ loc addr now ttl, now < cur.timestamp →
        updateLocation true (some cur) loc addr now ttl = some cur) ∧
    (∀ cache loc addr now ttl, tsOf cache ≤ now →
        updateLocation true cache loc addr now ttl = some ⟨loc, addr, now, ttl⟩) := by
  refine ⟨tsOf_updateLocation_le, fun ws cache => tsOf_applyWrites_le ws cache, ?_, ?_⟩
  · intro cur loc addr now ttl h
    simp [updateLocation, h]
  · intro cache loc addr now ttl h
    cases cache with
    | none => simp [updateLocation]
    | some cur =>
        simp only [tsOf] at h
        simp [updateLocation, Nat.not_lt.mpr h]

/-- Witness for C1: a write with timestamp 300 against a stored record of
timestamp 500 is rejected unchanged. -/
theorem locationCache_timestamp_monotone_witness :
    updateLocation true (some ⟨coordsA, none, 500, 1000⟩) coordsA none 300 1000
      = some ⟨coordsA, none, 500, 1000⟩ :=
  locationCache_timestamp_monotone.2.2.1 ⟨coordsA, none, 500, 1000⟩ coordsA none 300 1000
    (by decide)

/-- C4 (code bug): `isCacheValid` gives the TTL stored in the record
precedence over the caller-supplied TTL, while the claim (and the code's own
comment) give the caller-supplied TTL precedence.  At a record of age 2000 ms
with stored TTL 1000 ms and override 5000 ms the code answers false where the
claimed contract answers true. -/
theorem isCacheValid_override_ignored :
    isCacheValid (some c4Record) 5000 2000 = false ∧
    isCacheValidSpec (some c4Record) (some 5000) 2000 = true := by
  constructor <;> decide

/-- C8: the significant-change predicate is true exactly when the absolute
latitude difference OR the absolute longitude difference strictly exceeds the
threshold; a refined fix differing by exactly the (non-negative) threshold on
both axes is not significant. -/
theorem hasSignificantChange_strict_disjunction :
    (∀ t : ℚ, ∀ o n : Coords,
        hasSignificantChange t o n = true ↔
          (|n.latitude - o.latitude| > t ∨ |n.longitude - o.longitude| > t)) ∧
    (∀ t : ℚ, ∀ o : Coords, 0 ≤ t →
        hasSignificantChange t o ⟨o.latitude + t, o.longitude + t⟩ = false) := by
  constructor
  · intro t o n
    simp [hasSignificantChange]
  · intro t o ht
    simp [hasSignificantChange, abs_of_nonneg ht]

/-- Witness for C8: at the default threshold, a fix offset by exactly the
threshold on both axes is not significant. -/
theorem hasSignificantChange_strict_disjunction_witness :
    hasSignificantChange SIGNIFICANT_CHANGE_THRESHOLD coordsA
      ⟨coordsA.latitude + SIGNIFICANT_CHANGE_THRESHOLD,
        coordsA.longitude + SIGNIFICANT_CHANGE_THRESHOLD⟩ = false :=
  hasSignificantChange_strict_disjunction.2 SIGNIFICANT_CHANGE_THRESHOLD coordsA
    (by norm_num [SIGNIFICANT_CHANGE_THRESHOLD])

/-- C6: with no cancellation, the race strategy settles for every behaviour
of the two position sources (failures swallowed as null by the model's
`swallow`), and its value coincides with the claimed description
`raceStrategySpec`: the race winner when non-null, else the last-known value
if it settled with a fix, else the fresh value if it settled with a fix, else
null. -/
theorem fetchLocationWithRace_matches_spec :
    ∀ lastO newO : SourceOutcome, ∀ lastSettlesFirst : Bool,
      fetchLocationWithRace lastO newO false false lastSettlesFirst false false
        = raceStrategySpec (swallow lastO) (swallow newO) lastSettlesFirst := by
  rintro (⟨_ | v⟩ | _) (⟨_ | w⟩ | _) (_ | _) <;> rfl

/-- C3 counterexample: a resolution for `bucketA` is created with a clear
signal, the requester's token then fires while the external call is in
flight, and the call completes successfully with `addrA`; the requester
receives null, but contrary to the claim nothing is stored in the geocode
cache for the bucket. -/
theorem geocode_cancelled_inflight_not_cached :
    (rgCall geoInit 0 bucketA false 100).2 = CallRes.created 0 ∧
    (rgComplete geoAfterCreateA 0 bucketA true (Except.ok (some addrA)) 200).2 = none ∧
    (rgComplete geoAfterCreateA 0 bucketA true (Except.ok (some addrA)) 200).1.cache
        bucketA = none ∧
    ¬ (rgComplete geoAfterCreateA 0 bucketA true (Except.ok (some addrA)) 200).1.cache
        bucketA = some (some addrA, 200) := by
  refine ⟨by decide, by decide, by decide, ?_⟩
  decide

/-- C3 amended: a resolution already in flight when the creating requester's
cancellation token fires is not aborted mid-call, but on completion its
result is discarded entirely: the requester receives null, nothing is written
to the geocode cache, and the pending handle is still cleared. -/
theorem geocode_cancelled_inflight_discarded (s : GeoState) (rid : Nat)
    (k : BucketKey) (out : Except Unit (Option GeocodedAddress)) (t : Nat) :
    (rgComplete s rid k true out t).2 = none ∧
    (∀ k2, (rgComplete s rid k true out t).1.cache k2 = s.cache k2) ∧
    (rgComplete s rid k true out t).1.pending k = none := by
  cases out <;> simp [rgComplete]

/-- Helper for C5: `rgCall` preserves the geocode well-formedness invariant. -/
theorem geoInv_rgCall (s : GeoState) (rid : Nat) (k : BucketKey) (ab : Bool)
    (now : Nat) (h : GeoInv s) : GeoInv (rgCall s rid k ab now).1 := by
  obtain ⟨h1, h2, h3⟩ := h
  unfold rgCall rgCallPending
  by_cases hab : ab
  · simpa [hab] using ⟨h1, h2, h3⟩
  · have hpend : ∀ u : Unit, GeoInv (rgCallPending s rid k ab).1 := by
      intro _
      unfold rgCallPending
      cases hp : s.pending k with
      | some r => simp [hab]; exact ⟨h1, h2, h3⟩
      | none =>
          simp only []
          refine ⟨?_, ?_, ?_⟩
          · intro k2 r hk2
            by_cases hkk : k2 = k
            · subst hkk
              simp at hk2
              subst hk2
              exact List.mem_cons_self _ _
            · simp [hkk] at hk2
              exact List.mem_cons_of_mem _ (h1 _ _ hk2)
          · intro r k2 hm
            rcases List.mem_cons.mp hm with heq | hm2
            · injection heq with hr hk
              subst hr
              subst hk
              simp
            · have := h2 _ _ hm2
              have hkk : k2 ≠ k := by
                intro hcontra
                subst hcontra
                rw [hp] at this
                exact Option.noConfusion this
              simp [hkk, this]
          · refine List.nodup_cons.mpr ⟨?_, h3⟩
            intro hmem
            have := h2 _ _ hmem
            rw [hp] at this
            exact Option.noConfusion this
    cases hc : s.cache k with
    | none =>
        simpa [hab, hc] using hpend ()
    | some e =>
        by_cases httl : (now : ℤ) - (e.2 : ℤ) < (REVERSE_GEOCODE_CACHE_TTL : ℤ)
        · simp [hab, hc, httl]
          exact ⟨h1, h2, h3⟩
        · simpa [hab, hc, httl] using hpend ()

/-- Helper for C5: removing a settled resolution preserves the invariant. -/
theorem geoInv_erase (s : GeoState) (rid : Nat) (k : BucketKey)
    (hmem : (rid, k) ∈ s.inFlight) (h : GeoInv s) :
    GeoInv { s with
        pending := fun k2 => if k2 = k then none else s.pending k2,
        inFlight := s.inFlight.erase (rid, k) } := by
  obtain ⟨h1, h2, h3⟩ := h
  refine ⟨?_, ?_, List.Nodup.erase _ h3⟩
  · intro k2 r hk2
    by_cases hkk : k2 = k
    · simp [hkk] at hk2
    · simp only [if_neg hkk] at hk2
      have hin := h1 _ _ hk2
      have hne : (r, k2) ≠ (rid, k) := by
        intro hcontra
        exact hkk (congrArg Prod.snd hcontra)
      exact (List.mem_erase_of_ne hne).mpr hin
  · intro r k2 hm
    have hin := List.mem_of_mem_erase hm
    have hpk2 := h2 _ _ hin
    have hkk : k2 ≠ k := by
      intro hcontra
      subst hcontra
      have hridk : s.pending k2 = some rid := h2 _ _ hmem
      rw [hpk2] at hridk
      injection hridk with hrr
      subst hrr
      exact (List.Nodup.not_mem_erase h3) hm
    simp [hkk, hpk2]

/-- Helper for C5: `rgComplete` preserves the invariant for in-flight
resolutions. -/
theorem geoInv_rgComplete (s : GeoState) (rid : Nat) (k : BucketKey) (ab : Bool)
    (out : Except Unit (Option GeocodedAddress)) (t : Nat)
    (hmem : (rid, k) ∈ s.inFlight) (h : GeoInv s) :
    GeoInv (rgComplete s rid k ab out t).1 := by
  have hbase := geoInv_erase s rid k hmem h
  cases out with
  | error e => exact hbase
  | ok a =>
      by_cases hab : ab
      · simpa [rgComplete, hab] using hbase
      · simpa [rgComplete, hab] using hbase

/-- Helper for C5: every step of the geocode subsystem preserves the
invariant. -/
theorem geoInv_step (s : GeoState) (e : GeoEvent) (h : GeoInv s) :
    GeoInv (geoStep s e) := by
  cases e with
  | call rid k ab now => exact geoInv_rgCall s rid k ab now h
  | complete rid k ab out t =>
      by_cases hmem : (rid, k) ∈ s.inFlight
      · simpa [geoStep, hmem] using geoInv_rgComplete s rid k ab out t hmem h
      · simpa [geoStep, hmem] using h
  | cleanup now => exact h

/-- Helper for C5: the invariant holds in every reachable state. -/
theorem geoInv_run (es : List GeoEvent) : GeoInv (geoRun es) := by
  have base : GeoInv geoInit := by
    refine ⟨?_, ?_, List.nodup_nil⟩
    · intro k r h
      exact Option.noConfusion h
    · intro r k h
      exact absurd h (List.not_mem_nil _)
  have gen : ∀ es2 : List GeoEvent, ∀ s : GeoState, GeoInv s →
      GeoInv (es2.foldl geoStep s) := by
    intro es2
    induction es2 with
    | nil => intro s hs; exact hs
    | cons e es2 ih => intro s hs; exact ih _ (geoInv_step s e hs)
  exact gen es geoInit base

/-- Helper for C5: a duplicate-free list whose elements are pairwise equal
has at most one element. -/
theorem nodup_all_eq_length_le_one {α : Type} (l : List α) (hnd : l.Nodup)
    (hall : ∀ a ∈ l, ∀ b ∈ l, a = b) : l.length ≤ 1 := by
  cases l with
  | nil => simp
  | cons a l2 =>
      cases l2 with
      | nil => simp
      | cons b l3 =>
          exfalso
          have hab : a = b :=
            hall a (List.mem_cons_self _ _) b
              (List.mem_cons_of_mem _ (List.mem_cons_self _ _))
          have hnotmem : a ∉ b :: l3 := (List.nodup_cons.mp hnd).1
          exact hnotmem (hab ▸ List.mem_cons_self _ _)

/-- C5: at most one geocode resolution is in flight per coordinate bucket in
every reachable state; a caller arriving with a clear signal while a
resolution for its bucket is pending leaves the state unchanged and never
creates a second resolution, receiving the shared pending handle whenever it
reaches the pending map; a freshly created resolution is registered in the
pending map within the same atomic step; and completion clears the pending
handle on every exit path. -/
theorem geocode_single_flight_per_bucket :
    (∀ es : List GeoEvent, ∀ c : Coords,
        ((geoRun es).inFlight.filter
            (fun p => decide (p.2 = createCacheKey c))).length ≤ 1) ∧
    (∀ s : GeoState, ∀ r rid : Nat, ∀ k : BucketKey, ∀ now : Nat,
        s.pending k = some r →
          (rgCall s rid k false now).1 = s ∧
          (∀ r2, (rgCall s rid k false now).2 ≠ CallRes.created r2) ∧
          (∀ r2, (rgCall s rid k false now).2 = CallRes.joined r2 → r2 = r)) ∧
    (∀ s : GeoState, ∀ rid : Nat, ∀ k : BucketKey, ∀ ab : Bool, ∀ now r2 : Nat,
        (rgCall s rid k ab now).2 = CallRes.created r2 →
          r2 = rid ∧ (rgCall s rid k ab now).1.pending k = some rid) ∧
    (∀ s : GeoState, ∀ rid : Nat, ∀ k : BucketKey, ∀ ab : Bool,
        ∀ out : Except Unit (Option GeocodedAddress), ∀ t : Nat,
        (rgComplete s rid k ab out t).1.pending k = none) := by
  refine ⟨?_, ?_, ?_, ?_⟩
  · intro es c
    obtain ⟨h1, h2, h3⟩ := geoInv_run es
    refine nodup_all_eq_length_le_one _ (List.Nodup.filter _ h3) ?_
    intro a ha b hb
    obtain ⟨hain, hak⟩ := List.mem_filter.mp ha
    obtain ⟨hbin, hbk⟩ := List.mem_filter.mp hb
    rcases a with ⟨a1, a2⟩
    rcases b with ⟨b1, b2⟩
    have hak2 : a2 = createCacheKey c := of_decide_eq_true hak
    have hbk2 : b2 = createCacheKey c := of_decide_eq_true hbk
    subst hak2
    subst hbk2
    have hpa := h2 _ _ hain
    have hpb := h2 _ _ hbin
    rw [hpa] at hpb
    injection hpb with hr
    rw [hr]
  · intro s r rid k now hp
    unfold rgCall rgCallPending
    cases hc : s.cache k with
    | none => simp [hp]
    | some e =>
        by_cases httl : (now : ℤ) - (e.2 : ℤ) < (REVERSE_GEOCODE_CACHE_TTL : ℤ)
        · simp [httl]
        · simp [httl, hp]
  · intro s rid k ab now r2 hcr
    unfold rgCall rgCallPending at hcr ⊢
    by_cases hab : ab
    · simp [hab] at hcr
    · cases hc : s.cache k with
      | none =>
          cases hp : s.pending k with
          | some r => simp [hab, hc, hp] at hcr
          | none =>
              simp [hab, hc, hp] at hcr ⊢
              exact hcr.symm
      | some e =>
          by_cases httl : (now : ℤ) - (e.2 : ℤ) < (REVERSE_GEOCODE_CACHE_TTL : ℤ)
          · simp [hab, hc, httl] at hcr
          · cases hp : s.pending k with
            | some r => simp [hab, hc, httl, hp] at hcr
            | none =>
                simp [hab, hc, httl, hp] at hcr ⊢
                exact hcr.symm
  · intro s rid k ab out t
    cases out with
    | error e => simp [rgComplete]
    | ok a =>
        by_cases hab : ab
        · simp [rgComplete, hab]
        · simp [rgComplete, hab]

/-- Witness for C5: with resolution 7 pending for `bucketA`, a second caller
with a clear signal leaves the state unchanged and does not create
resolution 9. -/
theorem geocode_single_flight_per_bucket_witness :
    (rgCall geoPendingA 9 bucketA false 100).1 = geoPendingA ∧
    (rgCall geoPendingA 9 bucketA false 100).2 ≠ CallRes.created 9 := by
  have h := geocode_single_flight_per_bucket.2.1 geoPendingA 7 9 bucketA 100 (by decide)
  exact ⟨h.1, h.2.1 9⟩

/-- C10: a resolution that fails returns null and writes no cache entry, so
a later call for the same (still uncached) bucket starts a fresh resolution;
a resolution that succeeds with an absent address caches null under the
bucket, and that cached null is served as a valid hit, with no new
resolution, while within TTL. -/
theorem geocode_failure_uncached_null_hit :
    (∀ s : GeoState, ∀ rid : Nat, ∀ k : BucketKey, ∀ ab : Bool, ∀ t : Nat,
        (rgComplete s rid k ab (Except.error ()) t).2 = none ∧
        (∀ k2, (rgComplete s rid k ab (Except.error ()) t).1.cache k2 = s.cache k2)) ∧
    (∀ s : GeoState, ∀ rid : Nat, ∀ k : BucketKey, ∀ ab : Bool, ∀ t rid2 now : Nat,
        s.cache k = none →
        (rgCall (rgComplete s rid k ab (Except.error ()) t).1 rid2 k false now).2
          = CallRes.created rid2) ∧
    (∀ s : GeoState, ∀ rid : Nat, ∀ k : BucketKey, ∀ t : Nat,
        (rgComplete s rid k false (Except.ok none) t).1.cache k = some (none, t) ∧
        (rgComplete s rid k false (Except.ok none) t).2 = none) ∧
    (∀ s : GeoState, ∀ rid : Nat, ∀ k : BucketKey, ∀ now ts : Nat,
        s.cache k = some (none, ts) →
        (now : ℤ) - (ts : ℤ) < (REVERSE_GEOCODE_CACHE_TTL : ℤ) →
        rgCall s rid k false now = (s, CallRes.cachedHit none)) := by
  refine ⟨?_, ?_, ?_, ?_⟩
  · intro s rid k ab t
    exact ⟨by simp [rgComplete], fun k2 => by simp [rgComplete]⟩
  · intro s rid k ab t rid2 now h
    simp [rgComplete, rgCall, rgCallPending, h]
  · intro s rid k t
    constructor <;> simp [rgComplete]
  · intro s rid k now ts h httl
    simp [rgCall, h, httl]

/-- Witness for C10: after a failed resolution for the uncached `bucketA`, a
later call creates a fresh resolution; and with a cached null entry saved at
time 100, a call at time 200 is served the null hit with no state change. -/
theorem geocode_failure_uncached_null_hit_witness :
    (rgCall (rgComplete geoInit 0 bucketA false (Except.error ()) 100).1 1 bucketA
        false 200).2 = CallRes.created 1 ∧
    rgCall geoCachedNullA 5 bucketA false 200 = (geoCachedNullA, CallRes.cachedHit none) := by
  constructor
  · exact geocode_failure_uncached_null_hit.2.1 geoInit 0 bucketA false 100 1 200 rfl
  · exact geocode_failure_uncached_null_hit.2.2.2 geoCachedNullA 5 bucketA 200 100
      (by simp [geoCachedNullA]) (by decide)

/-- Helper for C2: once the lock is held by the cancelled waiter 1, every
valid continuation keeps it held by waiter 1, since no valid release event
exists from such a state. -/
theorem mutex_stuck_holder (es : List MutexEvent) :
    ∀ s : MutexState,
      s.isLocked = true → s.holder = some 1 → 1 ∈ s.cancelled →
      mutexSeqValid s es = true →
      (mutexRunFrom s es).isLocked = true ∧
      (mutexRunFrom s es).holder = some 1 ∧
      1 ∈ (mutexRunFrom s es).cancelled := by
  induction es with
  | nil => intro s h1 h2 h3 _; exact ⟨h1, h2, h3⟩
  | cons e es ih =>
      intro s h1 h2 h3 hv
      rw [mutexSeqValid, Bool.and_eq_true] at hv
      obtain ⟨hve, hvs⟩ := hv
      have hrun : mutexRunFrom s (e :: es) = mutexRunFrom (mutexStep s e) es := rfl
      rw [hrun]
      cases e with
      | acquire id =>
          have hstep : mutexStep s (.acquire id) =
              { s with waiters := s.waiters ++ [id] } := by
            simp [mutexStep, h1]
          rw [hstep] at hvs ⊢
          exact ih _ h1 h2 h3 hvs
      | cancel id =>
          by_cases hh : s.holder = some id
          · have hstep : mutexStep s (.cancel id) = s := by
              simp [mutexStep, hh]
            rw [hstep] at hvs ⊢
            exact ih _ h1 h2 h3 hvs
          · have hstep : mutexStep s (.cancel id) =
                { s with cancelled := id :: s.cancelled } := by
              simp [mutexStep, hh]
            rw [hstep] at hvs ⊢
            exact ih _ h1 h2 (List.mem_cons_of_mem _ h3) hvs
      | release =>
          exfalso
          simp [mutexEventValid, h2, h3] at hve

/-- C2 (code bug): with session 0 holding the Fetch Mutex, sessions 1 and 2
waiting in FIFO order, and session 1's cancellation firing before grant, the
cancelled waiter is not removed from the queue, is granted the lock when
session 0 releases, and — its caller having discarded the orphaned acquire
promise, so that no valid release exists — the remaining waiter 2 is never
granted the lock under any valid continuation, contrary to the claim. -/
theorem mutex_cancelled_waiter_granted_and_starves :
    mutexRun [MutexEvent.acquire 0, MutexEvent.acquire 1, MutexEvent.acquire 2,
        MutexEvent.cancel 1] =
      { isLocked := true, holder := some 0, waiters := [1, 2], cancelled := [1] } ∧
    mutexRun mutexDefectTrace =
      { isLocked := true, holder := some 1, waiters := [2], cancelled := [1] } ∧
    (∀ es : List MutexEvent,
        mutexSeqValid (mutexRun mutexDefectTrace) es = true →
        (mutexRunFrom (mutexRun mutexDefectTrace) es).holder ≠ some 2) := by
  refine ⟨by decide, by decide, ?_⟩
  intro es hv
  have h := mutex_stuck_holder es (mutexRun mutexDefectTrace)
    (by decide) (by decide) (by decide) hv
  rw [h.2.1]
  decide

/-- Witness for C2: after the defect trace, even one more arriving session
does not change that waiter 2 never holds the lock. -/
theorem mutex_cancelled_waiter_witness :
    (mutexRunFrom (mutexRun mutexDefectTrace) [MutexEvent.acquire 3]).holder ≠ some 2 :=
  mutex_cancelled_waiter_granted_and_starves.2.2 [MutexEvent.acquire 3] (by decide)

/-- C7: within one session, `refresh` is a no-op while the in-flight flag is
set — the state (and in particular the provider-call count) is unchanged by
any number of repeated calls. -/
theorem refresh_noop_while_fetching :
    (∀ env : FetchEnv, ∀ s : SessionState, s.isFetching = true →
        fetchLocation env s = s) ∧
    (∀ envs : List FetchEnv, ∀ s : SessionState, s.isFetching = true →
        envs.foldl (fun st e => fetchLocation e st) s = s) ∧
    (∀ envs : List FetchEnv, ∀ s : SessionState, s.isFetching = true →
        (envs.foldl (fun st e => fetchLocation e st) s).providerCalls
          = s.providerCalls) := by
  have h1 : ∀ env : FetchEnv, ∀ s : SessionState, s.isFetching = true →
      fetchLocation env s = s := by
    intro env s h
    simp [fetchLocation, h]
  have h2 : ∀ envs : List FetchEnv, ∀ s : SessionState, s.isFetching = true →
      envs.foldl (fun st e => fetchLocation e st) s = s := by
    intro envs
    induction envs with
    | nil => intro s _; rfl
    | cons e es ih =>
        intro s h
        simp only [List.foldl_cons]
        rw [h1 e s h]
        exact ih s h
  exact ⟨h1, h2, fun envs s h => by rw [h2 envs s h]⟩

/-- Witness for C7: a refresh against a session already fetching is the
identity. -/
theorem refresh_noop_while_fetching_witness :
    fetchLocation envDenied sessionIdleA = sessionIdleA :=
  refresh_noop_while_fetching.1 envDenied sessionIdleA rfl

/-- Helper for C9: denied permission settles the session in the error state. -/
theorem fetchLocation_denied_eq (env : FetchEnv) (s : SessionState)
    (hm : s.isMounted = true) (hf : s.isFetching = false)
    (h1 : env.abortedAfterPermission = false)
    (hp : env.permissionGranted = false) :
    fetchLocation env s =
      { s with coords := none, address := none, loading := false,
               error := some errorMsgPermission, isFetching := false,
               providerCalls := s.providerCalls + 1 } := by
  simp [fetchLocation, hf, h1, hp, applyFetchError, hm]

/-- Helper for C9: permission granted but no fix obtainable settles the
session in the error state. -/
theorem fetchLocation_nofix_eq (env : FetchEnv) (s : SessionState)
    (hm : s.isMounted = true) (hf : s.isFetching = false)
    (h1 : env.abortedAfterPermission = false)
    (hp : env.permissionGranted = true)
    (h2 : env.abortedAfterRaceReturn = false)
    (hr : raceValue env = none) :
    fetchLocation env s =
      { s with coords := none, address := none, loading := false,
               error := some errorMsgNoFix, isFetching := false,
               providerCalls := s.providerCalls + 1 + 2 } := by
  simp [fetchLocation, hf, h1, hp, h2, hr, applyFetchError, hm]

/-- Helper for C9: a successful fetch publishes the fix and clears loading. -/
theorem fetchLocation_success_eq (env : FetchEnv) (s : SessionState) (c : Coords)
    (hm : s.isMounted = true) (hf : s.isFetching = false)
    (h1 : env.abortedAfterPermission = false)
    (hp : env.permissionGranted = true)
    (h2 : env.abortedAfterRaceReturn = false)
    (hr : raceValue env = some c) :
    fetchLocation env s =
      { s with coords := some c, loading := false, error := none,
               isFetching := false,
               providerCalls := s.providerCalls + 1 + 2 } := by
  simp [fetchLocation, hf, h1, hp, h2, hr, hm]

/-- C9: every top-level fetch failure that is not a cancellation (permission
denied, or no fix after the full fallback) leaves the mounted session with
coordinate and address cleared, loading false and a human-readable message
published, and the session remains retry-able: a subsequent refresh with a
fix succeeds. -/
theorem fetch_failure_clears_state (env : FetchEnv) (s : SessionState)
    (hm : s.isMounted = true) (hf : s.isFetching = false)
    (h1 : env.abortedAfterPermission = false)
    (h2 : env.abortedAfterRaceReturn = false)
    (hfail : env.permissionGranted = false ∨ raceValue env = none) :
    (fetchLocation env s).coords = none ∧
    (fetchLocation env s).address = none ∧
    (fetchLocation env s).loading = false ∧
    ((fetchLocation env s).error = some errorMsgPermission ∨
      (fetchLocation env s).error = some errorMsgNoFix) ∧
    (fetchLocation env s).isFetching = false ∧
    (∀ env2 : FetchEnv, ∀ c : Coords,
        env2.abortedAfterPermission = false →
        env2.abortedAfterRaceReturn = false →
        env2.permissionGranted = true →
        raceValue env2 = some c →
        (fetchLocation env2 (fetchLocation env s)).coords = some c ∧
        (fetchLocation env2 (fetchLocation env s)).loading = false) := by
  by_cases hp2 : env.permissionGranted = true
  · have hrc : raceValue env = none := by
      rcases hfail with hp | hrc
      · rw [hp2] at hp
        exact absurd hp (by decide)
      · exact hrc
    rw [fetchLocation_nofix_eq env s hm hf h1 hp2 h2 hrc]
    refine ⟨rfl, rfl, rfl, Or.inr rfl, rfl, ?_⟩
    intro env2 c ha hb hc2 hd
    have hs2 := fetchLocation_success_eq env2
      { s with coords := none, address := none, loading := false,
               error := some errorMsgNoFix, isFetching := false,
               providerCalls := s.providerCalls + 1 + 2 } c hm rfl ha hc2 hb hd
    rw [hs2]
    exact ⟨rfl, rfl⟩
  · have hp : env.permissionGranted = false := by
      cases hpg : env.permissionGranted
      · rfl
      · exact absurd hpg hp2
    rw [fetchLocation_denied_eq env s hm hf h1 hp]
    refine ⟨rfl, rfl, rfl, Or.inl rfl, rfl, ?_⟩
    intro env2 c ha hb hc2 hd
    have hs2 := fetchLocation_success_eq env2
      { s with coords := none, address := none, loading := false,
               error := some errorMsgPermission, isFetching := false,
               providerCalls := s.providerCalls + 1 } c hm rfl ha hc2 hb hd
    rw [hs2]
    exact ⟨rfl, rfl⟩

/-- Witness for C9: a denied permission request against a fresh mounted
session clears the coordinate, publishes the permission message and leaves
the session retry-able. -/
theorem fetch_failure_clears_state_witness :
    (fetchLocation envDenied sessionReadyA).coords = none ∧
    ((fetchLocation envDenied sessionReadyA).error = some errorMsgPermission ∨
      (fetchLocation envDenied sessionReadyA).error = some errorMsgNoFix) ∧
    (fetchLocation envDenied sessionReadyA).isFetching = false := by
  have h := fetch_failure_clears_state envDenied sessionReadyA rfl rfl rfl rfl
    (Or.inl rfl)
  exact ⟨h.1, h.2.2.2.1, h.2.2.2.2.1⟩

end LocationHook
